import Mathlib

/-!
ShotTracker — Scoring & Ballistics Module, verified embedding.

Shallow embedding of the scoring, range-reconciliation and export logic of
the ShotTracker repository, together with theorems settling the frozen
claims about its specification.

Sources embedded:
* `calculateScore` (client scoring library / session form),
* `getAdjustedValues` and the marker toggle of `ScoringSection`
  (`scoring-section.tsx`),
* `STANDARD_RANGES` and the `rangeData` reconciliation of
  `dope-card-detail.tsx`,
* `generateAsciiTable` of `dope.tsx`,
* the CSV field escaping of `exportUtils.ts`,
* the dope-range create/update storage operations of `server/storage.ts`
  and the client save dispatch of `dope-card-detail.tsx`.
-/

namespace ShotTracker

/-- A shot entry as the code receives it: the `shots` column is an array of
`string | number` (zod schema: `z.array(z.union([z.string(), z.number()]))`). -/
inductive ShotInput where
  | num (n : Int)
  | str (s : String)
deriving DecidableEq, Repr

/-- Result record of `calculateScore`: `{ totalScore: number; vCount: number }`. -/
structure ScoreResult where
  totalScore : Int
  vCount : Nat
deriving DecidableEq, Repr

/-- Decimal value of a digit string. -/
def digitsVal (cs : List Char) : Nat :=
  cs.foldl (fun n c => n * 10 + (c.toNat - 48)) 0

/-- An ASCII decimal digit (character codes 48–57). -/
def isDecDigit (c : Char) : Bool :=
  48 ≤ c.toNat && c.toNat ≤ 57

/-- An ASCII letter (character codes 65–90 or 97–122). -/
def asciiLetter (c : Char) : Bool :=
  (65 ≤ c.toNat && c.toNat ≤ 90) || (97 ≤ c.toNat && c.toNat ≤ 122)

/-- Parse a non-empty string of decimal digits, `none` otherwise. -/
def decDigits? (s : String) : Option Nat :=
  if s.data ≠ [] ∧ s.data.all isDecDigit then some (digitsVal s.data) else none

/-- JavaScript `Number(s)` conversion, modelled exactly on the string
classes the theorems below quantify over: the empty string converts to
`0`; a string of decimal digits converts to its value; and a non-empty
string of letters other than the literal `"Infinity"` is `NaN`
(modelled as `none`), since letters alone can form no JS numeric
literal — decimal forms need a digit, signed forms a sign, hex, octal
and binary forms a leading `0`.  The further forms JS parses (signs,
decimal points, exponents, surrounding whitespace, `0x`/`0o`/`0b`
prefixes, `"Infinity"`) lie outside every theorem's domain here and are
not modelled. -/
def jsToNumber (s : String) : Option Int :=
  if s = "" then some 0
  else match decDigits? s with
    | some n => some (n : Int)
    | none => none

/-- One iteration of the `for (const shot of shots)` loop of
`calculateScore`: `'V'`/`'v'` adds 5 and bumps `vCount`; a number adds
itself; a string passing `!isNaN(Number(shot))` adds `Number(shot)`;
anything else is skipped. -/
def calcStep (acc : ScoreResult) (shot : ShotInput) : ScoreResult :=
  match shot with
  | .str s =>
    if s = "V" ∨ s = "v" then
      { totalScore := acc.totalScore + 5, vCount := acc.vCount + 1 }
    else
      match jsToNumber s with
      | some n => { acc with totalScore := acc.totalScore + n }
      | none => acc
  | .num n => { acc with totalScore := acc.totalScore + n }

/-- The function `calculateScore(shots)` of the scoring library: folds `calcStep` over
the shot array starting from `{ totalScore: 0, vCount: 0 }`. -/
def calculateScore (shots : List ShotInput) : ScoreResult :=
  shots.foldl calcStep { totalScore := 0, vCount := 0 }

/-! ## Spec-side shot classification

The specification's data model describes a shot abstractly as
`Numeric(n)` (0–10), `Bullseye`, or `Unfired`; the claims quantify over
sequences of such values.  These definitions classify a concrete
`ShotInput` accordingly, following the spec's words. -/

/-- Spec-side tag for a shot value. -/
inductive ShotClass where
  | numeric (n : Nat)
  | bullseye
  | unfired
deriving DecidableEq, Repr

/-- Classify a raw shot input per the spec's data model: `Numeric(n)` for an
integer 0–10 (given as a number or as its digit string), `Bullseye` for the
`"V"` marker, `Unfired` for the empty string; anything else is invalid
(`none`). -/
def specShotClass (s : ShotInput) : Option ShotClass :=
  match s with
  | .num n => if 0 ≤ n ∧ n ≤ 10 then some (.numeric n.toNat) else none
  | .str s =>
    if s = "V" then some .bullseye
    else if s = "" then some .unfired
    else match decDigits? s with
      | some n => if n ≤ 10 then some (.numeric n) else none
      | none => none

/-- A shot input accepted by the spec's data model. -/
def ShotInput.validShot (s : ShotInput) : Bool :=
  (specShotClass s).isSome

/-- The spec's value of a shot: 5 if Bullseye, the numeric value if
Numeric, 0 if Unfired (and 0 for invalid inputs, which valid sequences
exclude). -/
def specValue (s : ShotInput) : Int :=
  match specShotClass s with
  | some (.numeric n) => (n : Int)
  | some .bullseye => 5
  | _ => 0

/-- Whether the spec classifies a shot as a Bullseye entry. -/
def specIsV (s : ShotInput) : Bool :=
  specShotClass s = some .bullseye

/-! ## Characterisation of `calculateScore` on valid sequences -/

/-- On a valid shot, one loop iteration adds the spec's value to the total
and counts exactly the Bullseye entries. -/
theorem calcStep_valid (acc : ScoreResult) (s : ShotInput)
    (h : s.validShot = true) :
    calcStep acc s =
      { totalScore := acc.totalScore + specValue s,
        vCount := acc.vCount + (if specIsV s then 1 else 0) } := by
  cases s with
  | num n =>
    simp only [ShotInput.validShot, specShotClass] at h
    split at h
    · rename_i hr
      simp [calcStep, specValue, specIsV, specShotClass, hr, Int.toNat_of_nonneg hr.1]
    · simp at h
  | str t =>
    simp only [ShotInput.validShot, specShotClass] at h
    by_cases hV : t = "V"
    · subst hV
      simp [calcStep, specValue, specIsV, specShotClass]
    · by_cases hE : t = ""
      · subst hE
        simp [calcStep, specValue, specIsV, specShotClass, jsToNumber]
      · simp only [hV, hE, if_false] at h
        cases hn : decDigits? t with
        | none => simp [hn] at h
        | some n =>
          simp only [hn] at h
          by_cases hle : n ≤ 10
          · have hv : t ≠ "v" := by
              intro hveq
              rw [hveq] at hn
              have hvnone : decDigits? "v" = none := by decide
              rw [hvnone] at hn
              exact Option.noConfusion hn
            have hjs : jsToNumber t = some (n : Int) := by
              simp [jsToNumber, hE, hn]
            simp [calcStep, hV, hv, hjs, specValue, specIsV, specShotClass, hE, hn, hle]
          · simp [hle] at h

/-- Accumulator form: folding the scoring loop over a valid sequence adds
the sum of spec values and the count of Bullseyes to the accumulator. -/
theorem calcFold_valid (shots : List ShotInput) :
    ∀ acc : ScoreResult, shots.all ShotInput.validShot = true →
      shots.foldl calcStep acc =
        { totalScore := acc.totalScore + (shots.map specValue).sum,
          vCount := acc.vCount + shots.countP specIsV } := by
  induction shots with
  | nil => intro acc _; simp
  | cons s rest ih =>
    intro acc hall
    simp only [List.all_cons, Bool.and_eq_true] at hall
    rw [List.foldl_cons, calcStep_valid acc s hall.1, ih _ hall.2]
    simp only [List.map_cons, List.sum_cons, List.countP_cons, ScoreResult.mk.injEq]
    constructor
    · ring
    · omega

/-- On a sequence of valid shots, `calculateScore` returns the sum of spec
values and the Bullseye count. -/
theorem calculateScore_valid (shots : List ShotInput)
    (h : shots.all ShotInput.validShot = true) :
    calculateScore shots =
      { totalScore := (shots.map specValue).sum,
        vCount := shots.countP specIsV } := by
  have := calcFold_valid shots { totalScore := 0, vCount := 0 } h
  simpa [calculateScore] using this

/-- The documented example sequence
`["V","V","3","0","","2","V","1","4","0","5","V"]`. -/
def exShots : List ShotInput :=
  [.str "V", .str "V", .str "3", .str "0", .str "", .str "2", .str "V",
   .str "1", .str "4", .str "0", .str "5", .str "V"]

/-- C1: for every 12-element shot sequence whose entries are each
Numeric(0–10), Bullseye (`"V"`), or Unfired (empty), `calculateScore`
returns `totalScore` equal to the sum over shots of (5 if Bullseye, the
numeric value if Numeric, 0 if Unfired) and `vCount` equal to the number
of Bullseye entries. -/
theorem calculateScore_matches_spec (shots : List ShotInput)
    (_hlen : shots.length = 12) (hv : shots.all ShotInput.validShot = true) :
    calculateScore shots =
      { totalScore := (shots.map specValue).sum,
        vCount := shots.countP specIsV } :=
  calculateScore_valid shots hv

/-- C1 witness: the documented example scores `{totalScore := 35, vCount := 4}`. -/
theorem calculateScore_matches_spec_witness :
    exShots.length = 12 ∧ exShots.all ShotInput.validShot = true ∧
    calculateScore exShots = { totalScore := 35, vCount := 4 } := by
  refine ⟨by decide, by decide, ?_⟩
  rw [calculateScore_matches_spec exShots (by decide) (by decide)]
  decide

/-- A sequence of twelve shots all recorded as the number 10 — accepted by
the spec's data model, which allows Numeric(0–10). -/
def allTens : List ShotInput := List.replicate 12 (.num 10)

/-- C2 counterexample: twelve Numeric(10) entries are each accepted by the
data model, yet `calculateScore` returns `totalScore = 120 > 60`. -/
theorem calculateScore_bound_cex :
    allTens.length = 12 ∧ allTens.all ShotInput.validShot = true ∧
    (calculateScore allTens).totalScore = 120 ∧
    ¬ (calculateScore allTens).totalScore ≤ 60 := by decide

/-- A shot entry actually offered by the application's shot selector:
Numeric(0–5), Bullseye, or Unfired. -/
def ShotInput.valid05 (s : ShotInput) : Bool :=
  match specShotClass s with
  | some (.numeric n) => n ≤ 5
  | some _ => true
  | none => false

theorem valid05_validShot {s : ShotInput} (h : s.valid05 = true) :
    s.validShot = true := by
  unfold ShotInput.valid05 at h
  unfold ShotInput.validShot
  cases hc : specShotClass s with
  | none => rw [hc] at h; exact absurd h (by simp)
  | some c => simp

theorem valid05_specValue_le {s : ShotInput} (h : s.valid05 = true) :
    specValue s ≤ 5 := by
  unfold ShotInput.valid05 at h
  unfold specValue
  cases hc : specShotClass s with
  | none => rw [hc] at h; exact absurd h (by simp)
  | some c =>
    rw [hc] at h
    cases c with
    | numeric n =>
      simp only [decide_eq_true_eq] at h
      simp only []
      exact_mod_cast h
    | bullseye => simp
    | unfired => simp

/-- C2 amended: for every 12-element sequence whose entries are among the
values the shot selector offers (Numeric 0–5, Bullseye, Unfired),
`calculateScore` satisfies `vCount ≤ 12` and `totalScore ≤ 60`. -/
theorem calculateScore_bounds (shots : List ShotInput)
    (hlen : shots.length = 12) (hv : shots.all ShotInput.valid05 = true) :
    (calculateScore shots).vCount ≤ 12 ∧
    (calculateScore shots).totalScore ≤ 60 := by
  have hvv : shots.all ShotInput.validShot = true := by
    rw [List.all_eq_true] at hv ⊢
    exact fun s hs => valid05_validShot (hv s hs)
  rw [calculateScore_valid shots hvv]
  constructor
  · calc shots.countP specIsV ≤ shots.length := List.countP_le_length _
      _ = 12 := hlen
  · have hle : ∀ x ∈ shots.map specValue, x ≤ (5 : Int) := by
      intro x hx
      rw [List.mem_map] at hx
      obtain ⟨s, hs, rfl⟩ := hx
      rw [List.all_eq_true] at hv
      exact valid05_specValue_le (hv s hs)
    have := List.sum_le_card_nsmul (shots.map specValue) 5 hle
    rw [List.length_map, hlen] at this
    simpa using this

/-- C2 amended witness: the documented example is within the selector's
values and satisfies both bounds. -/
theorem calculateScore_bounds_witness :
    exShots.length = 12 ∧ exShots.all ShotInput.valid05 = true ∧
    (calculateScore exShots).vCount ≤ 12 ∧
    (calculateScore exShots).totalScore ≤ 60 := by
  refine ⟨by decide, by decide, ?_⟩
  exact calculateScore_bounds exShots (by decide) (by decide)

/-! ## ScoringSection: marker removal (`scoring-section.tsx`) -/

/-- The value of `shots[i] === 'V' ? 5 : (Number(shots[i]) || 0)` in
`getAdjustedValues`: 5 for the exact string `'V'`, otherwise the numeric
conversion with `NaN` collapsed to 0 by `|| 0`. -/
def markerShotValue (s : ShotInput) : Int :=
  match s with
  | .num n => n
  | .str t => if t = "V" then 5 else (jsToNumber t).getD 0

/-- The test `shots[i] === 'V'` (strict equality with the string `'V'`). -/
def markerShotIsV : ShotInput → Bool
  | .str t => t = "V"
  | .num _ => false

/-- The function `getAdjustedValues` of `ScoringSection`: when markers are not removed
it returns the base pair unchanged; when removed it subtracts the values
of shot positions 0 and 1 from the total (clamped at zero with
`Math.max`) and the number of `'V'` entries among those two from the
V-count (clamped at zero).  An index past the end of the array is JS
`undefined`, which is not `'V'` and converts to `NaN`, hence contributes
0 — modelled by defaulting to the empty string, which contributes the
same. -/
def getAdjustedValues (markersRemoved : Bool) (totalScore : Int)
    (vCount : Int) (shots : List ShotInput) : Int × Int :=
  if !markersRemoved then (totalScore, vCount)
  else
    let shot1Value := markerShotValue (shots.getD 0 (.str ""))
    let shot2Value := markerShotValue (shots.getD 1 (.str ""))
    let shot1IsV := markerShotIsV (shots.getD 0 (.str ""))
    let shot2IsV := markerShotIsV (shots.getD 1 (.str ""))
    let adjustedScore := max 0 (totalScore - shot1Value - shot2Value)
    let adjustedVCount :=
      vCount - (if shot1IsV then 1 else 0) - (if shot2IsV then 1 else 0)
    (adjustedScore, max 0 adjustedVCount)

/-- The state of the `ScoringSection` component: the `markersRemoved`
toggle and the watched shot array. -/
structure ScoringState where
  markersRemoved : Bool
  shots : List ShotInput
deriving DecidableEq, Repr

/-- The handler `handleToggleMarkers`: flips the `markersRemoved` flag and nothing
else. -/
def handleToggleMarkers (s : ScoringState) : ScoringState :=
  { s with markersRemoved := !s.markersRemoved }

/-- The `{adjustedScore, adjustedVCount}` pair the component displays:
the base result of `calculateScore` passed through `getAdjustedValues`. -/
def displayedValues (s : ScoringState) : Int × Int :=
  let r := calculateScore s.shots
  getAdjustedValues s.markersRemoved r.totalScore (r.vCount : Int) s.shots

/-- On a valid shot the component's per-shot marker value and V-flag agree
with the spec's value and Bullseye classification. -/
theorem marker_eq_spec {s : ShotInput} (h : s.validShot = true) :
    markerShotValue s = specValue s ∧ markerShotIsV s = specIsV s := by
  cases s with
  | num n =>
    simp only [ShotInput.validShot, specShotClass] at h
    split at h
    · rename_i hr
      constructor
      · simp [markerShotValue, specValue, specShotClass, hr,
          Int.toNat_of_nonneg hr.1]
      · simp [markerShotIsV, specIsV, specShotClass, hr]
    · simp at h
  | str t =>
    simp only [ShotInput.validShot, specShotClass] at h
    by_cases hV : t = "V"
    · subst hV
      exact ⟨by simp [markerShotValue, specValue, specShotClass],
             by simp [markerShotIsV, specIsV, specShotClass]⟩
    · by_cases hE : t = ""
      · subst hE
        exact ⟨by simp [markerShotValue, specValue, specShotClass, jsToNumber],
               by simp [markerShotIsV, specIsV, specShotClass]⟩
      · simp only [hV, hE, if_false] at h
        cases hn : decDigits? t with
        | none => simp [hn] at h
        | some n =>
          simp only [hn] at h
          by_cases hle : n ≤ 10
          · have hjs : jsToNumber t = some (n : Int) := by
              simp [jsToNumber, hE, hn]
            exact ⟨by simp [markerShotValue, specValue, specShotClass, hV, hE, hn,
                      hle, hjs],
                   by simp [markerShotIsV, specIsV, specShotClass, hV, hE, hn, hle]⟩
          · simp [hle] at h

/-- C3: on every valid 12-element shot sequence, the marker-removal
operation returns the base `totalScore` minus the spec values of the
shots at positions 0 and 1 (Bullseye counted as 5), and the base
`vCount` minus the number of Bullseyes among those two shots, each
clamped at zero. -/
theorem markerRemoval_spec (shots : List ShotInput)
    (hlen : shots.length = 12) (hv : shots.all ShotInput.validShot = true) :
    displayedValues { markersRemoved := true, shots := shots } =
      (max 0 ((calculateScore shots).totalScore
          - specValue (shots.getD 0 (.str ""))
          - specValue (shots.getD 1 (.str ""))),
       max 0 (((calculateScore shots).vCount : Int)
          - (if specIsV (shots.getD 0 (.str "")) then 1 else 0)
          - (if specIsV (shots.getD 1 (.str "")) then 1 else 0))) := by
  cases shots with
  | nil => simp at hlen
  | cons a t =>
    cases t with
    | nil => simp at hlen
    | cons b rest =>
      simp only [List.all_cons, Bool.and_eq_true] at hv
      obtain ⟨ha, hb, _⟩ := hv
      obtain ⟨hva, hia⟩ := marker_eq_spec ha
      obtain ⟨hvb, hib⟩ := marker_eq_spec hb
      simp [displayedValues, getAdjustedValues, hva, hia, hvb, hib]

/-- The spec's marker-removal example: `["V","4"]` followed by ten zeros. -/
def markerExShots : List ShotInput :=
  [.str "V", .str "4"] ++ List.replicate 10 (.str "0")

/-- C3 witness: on `["V","4", rest zero]` the base result is
`{totalScore := 9, vCount := 1}` and marker removal yields `(0, 0)` —
a reduction of 9 points and 1 V, clamped at zero. -/
theorem markerRemoval_spec_witness :
    markerExShots.length = 12 ∧
    markerExShots.all ShotInput.validShot = true ∧
    calculateScore markerExShots = { totalScore := 9, vCount := 1 } ∧
    displayedValues { markersRemoved := true, shots := markerExShots } = (0, 0) := by
  refine ⟨by decide, by decide, by decide, ?_⟩
  rw [markerRemoval_spec markerExShots (by decide) (by decide)]
  decide

/-- C10: the marker toggle is a presentation-layer transformation: it
leaves the shot sequence unchanged, leaves the base `calculateScore`
result unchanged, is its own inverse, and with markers not removed the
displayed pair is exactly the base result — the adjustment is applied
after the base calculation, never by mutating the shots. -/
theorem toggleMarkers_frame (s : ScoringState) :
    (handleToggleMarkers s).shots = s.shots ∧
    calculateScore (handleToggleMarkers s).shots = calculateScore s.shots ∧
    handleToggleMarkers (handleToggleMarkers s) = s ∧
    displayedValues { s with markersRemoved := false } =
      ((calculateScore s.shots).totalScore,
       ((calculateScore s.shots).vCount : Int)) := by
  refine ⟨rfl, rfl, ?_, ?_⟩
  · simp [handleToggleMarkers]
  · simp [displayedValues, getAdjustedValues]

/-! ## Error handling of `calculateScore` (invalid values) -/

/-- A 12-element sequence containing the invalid value `"abc"`. -/
def invalidShots : List ShotInput :=
  [.str "abc", .str "5", .str "V", .str "0", .str "0", .str "0",
   .str "0", .str "0", .str "0", .str "0", .str "0", .str "0"]

/-- C8 counterexample: on a sequence containing the invalid value
`"abc"`, `calculateScore` does not fail: it returns the ordinary result
`{totalScore := 10, vCount := 1}`, identical to the result with the
invalid entry removed — the invalid value is silently treated as
contributing nothing. -/
theorem calculateScore_invalid_cex :
    (ShotInput.str "abc").validShot = false ∧
    calculateScore invalidShots = { totalScore := 10, vCount := 1 } ∧
    calculateScore invalidShots = calculateScore (invalidShots.drop 1) := by
  decide

/-- C8 amended: `calculateScore` never raises an error; a shot value that
is a non-empty string of letters other than the bullseye markers
`'V'`/`'v'` — on which JS `Number()` is guaranteed `NaN`, the one
letter-only numeric literal `"Infinity"` excluded — is silently
skipped, contributing nothing to either `totalScore` or `vCount`.
(Numeric-looking strings such as `"-2"` or `"3.5"`, which `Number()`
does parse, are outside this statement's domain.) -/
theorem calculateScore_skips_invalid (xs ys : List ShotInput) (s : String)
    (hne : s.data ≠ []) (hall : s.data.all asciiLetter = true)
    (_hInf : s ≠ "Infinity") (hV : s ≠ "V") (hv : s ≠ "v") :
    calculateScore (xs ++ .str s :: ys) = calculateScore (xs ++ ys) := by
  have hnum : jsToNumber s = none := by
    have hne2 : s ≠ "" := by
      intro hseq
      exact hne (by rw [hseq])
    rw [jsToNumber, if_neg hne2]
    have hdd : decDigits? s = none := by
      rw [decDigits?, if_neg]
      rintro ⟨-, hdig⟩
      cases hcs : s.data with
      | nil => exact hne hcs
      | cons c rest =>
        rw [hcs] at hall hdig
        simp only [List.all_cons, Bool.and_eq_true] at hall hdig
        have h1 := hall.1
        have h2 := hdig.1
        simp only [asciiLetter, Bool.or_eq_true, Bool.and_eq_true,
          decide_eq_true_eq] at h1
        simp only [isDecDigit, Bool.and_eq_true, decide_eq_true_eq] at h2
        omega
    rw [hdd]
  unfold calculateScore
  rw [List.foldl_append, List.foldl_append, List.foldl_cons]
  have hstep : ∀ acc : ScoreResult, calcStep acc (.str s) = acc := by
    intro acc
    simp [calcStep, hV, hv, hnum]
  rw [hstep]

/-- C8 amended witness: dropping the invalid letter string `"abc"` from a
concrete sequence leaves the score unchanged. -/
theorem calculateScore_skips_invalid_witness :
    ("abc" : String).data ≠ [] ∧ ("abc" : String).data.all asciiLetter = true ∧
    calculateScore ([] ++ .str "abc" :: invalidShots.drop 1) =
      calculateScore ([] ++ invalidShots.drop 1) := by
  refine ⟨by decide, by decide, ?_⟩
  exact calculateScore_skips_invalid [] (invalidShots.drop 1) "abc"
    (by decide) (by decide) (by decide) (by decide) (by decide)

/-! ## DOPE range data and reconciliation (`dope-card-detail.tsx`) -/

/-- A row of the `dope_ranges` table: `id`, `range` (yards), optional
`elevation` and `windage` (MOA, SQL `real`). -/
structure DopeRange where
  id : Nat
  range : Int
  elevation : Option Rat
  windage : Option Rat
deriving DecidableEq, Repr

/-- The constant `STANDARD_RANGES` of `dope-card-detail.tsx`. -/
def STANDARD_RANGES : List Int :=
  [100, 200, 300, 400, 500, 600, 700, 800, 900, 1000, 1200]

/-- One element of the merged `rangeData` list:
`{ range: standardRange, data: existingRange || null }`. -/
structure RangeRow where
  range : Int
  data : Option DopeRange
deriving DecidableEq, Repr

/-- The `rangeData` reconciliation: for each standard range, look up the
first entry with exactly that distance (`ranges?.find(r => r.range ===
standardRange)`), carrying `null` when none exists. -/
def rangeData (ranges : List DopeRange) : List RangeRow :=
  STANDARD_RANGES.map (fun d =>
    { range := d, data := ranges.find? (fun r => r.range == d) })

/-- C4: for every entry list, the reconciliation yields exactly one row
per standard distance in the fixed ascending order (length always 11),
rows matched by exact distance equality; an entry whose distance is not
in the standard set appears in no row, and with zero entries every row
carries no data. -/
theorem rangeData_reconciles (ranges : List DopeRange) :
    (rangeData ranges).length = 11 ∧
    (rangeData ranges).map RangeRow.range = STANDARD_RANGES ∧
    (∀ row ∈ rangeData ranges, ∀ e, row.data = some e →
      e.range = row.range ∧ e ∈ ranges) ∧
    (∀ e ∈ ranges, e.range ∉ STANDARD_RANGES →
      ∀ row ∈ rangeData ranges, row.data ≠ some e) ∧
    (∀ row ∈ rangeData [], row.data = none) := by
  have hmatch : ∀ row ∈ rangeData ranges, ∀ e, row.data = some e →
      e.range = row.range ∧ e ∈ ranges := by
    intro row hrow e hde
    rw [rangeData, List.mem_map] at hrow
    obtain ⟨d, _, rfl⟩ := hrow
    simp only at hde
    refine ⟨?_, List.mem_of_find?_eq_some hde⟩
    have := List.find?_some hde
    simpa using this
  have hranges : ∀ row ∈ rangeData ranges, row.range ∈ STANDARD_RANGES := by
    intro row hrow
    rw [rangeData, List.mem_map] at hrow
    obtain ⟨d, hd, rfl⟩ := hrow
    simpa using hd
  refine ⟨by simp [rangeData, STANDARD_RANGES], ?_, hmatch, ?_, by decide⟩
  · rw [rangeData, List.map_map]
    simp [Function.comp_def]
  · intro e _ hnot row hrow hde
    obtain ⟨hr, _⟩ := hmatch row hrow e hde
    exact hnot (hr ▸ hranges row hrow)

/-- A concrete entry list with a standard distance (300) and a
non-standard one (250). -/
def wRanges : List DopeRange :=
  [{ id := 1, range := 300, elevation := some 3, windage := none },
   { id := 2, range := 250, elevation := none, windage := some 1 }]

/-- C4 witness: at a concrete entry list the reconciliation keeps the
fixed 11-row shape. -/
theorem rangeData_reconciles_witness :
    (rangeData wRanges).length = 11 ∧
    (rangeData wRanges).map RangeRow.range = STANDARD_RANGES := by
  have h := rangeData_reconciles wRanges
  exact ⟨h.1, h.2.1⟩

/-- A range entry for 300 yards with neither elevation nor windage. -/
def emptyEntry300 : DopeRange :=
  { id := 7, range := 300, elevation := none, windage := none }

/-- C5 counterexample: a range entry that exists but has neither
elevation nor windage still yields a data-bearing row (`data` present,
the code's `hasData`), unlike the no-entry rows — it is NOT treated
identically to having no entry. -/
theorem rangeData_hasData_cex :
    emptyEntry300.elevation = none ∧ emptyEntry300.windage = none ∧
    (rangeData [emptyEntry300]).map (fun row => row.data.isSome) =
      [false, false, true, false, false, false, false, false, false, false, false] ∧
    (rangeData []).map (fun row => row.data.isSome) =
      List.replicate 11 false := by decide

/-- C5 amended: a reconciled row has data exactly when an entry with its
distance exists, regardless of whether elevation or windage is present;
a present elevation with absent windage is carried through unchanged
because the row holds the found entry itself. -/
theorem rangeData_hasData (ranges : List DopeRange) :
    ∀ row ∈ rangeData ranges,
      row.data.isSome = ranges.any (fun r => r.range == row.range) := by
  intro row hrow
  rw [rangeData, List.mem_map] at hrow
  obtain ⟨d, _, rfl⟩ := hrow
  simp only []
  rw [Bool.eq_iff_iff, List.find?_isSome, List.any_eq_true]

/-- C5 amended witness: the no-value entry at 300 makes its row report
data. -/
theorem rangeData_hasData_witness :
    ({ range := 300, data := some emptyEntry300 } : RangeRow).data.isSome =
      [emptyEntry300].any (fun r => r.range == (300 : Int)) := by
  exact rangeData_hasData [emptyEntry300]
    { range := 300, data := some emptyEntry300 } (by decide)

/-! ## Range entry persistence (`server/storage.ts`,
`dope-card-detail.tsx` save dispatch) -/

/-- The method `createDopeRange` of the storage layer: an unconditional insert
(`db.insert(dopeRanges).values(...)`); neither it nor the `dope_ranges`
schema checks for an existing entry at the same distance. -/
def createDopeRange (rows : List DopeRange) (r : DopeRange) : List DopeRange :=
  rows ++ [r]

/-- The method `updateDopeRange` of the storage layer: sets the submitted fields on
the row(s) whose `id` matches (`.where(eq(dopeRanges.id, id))`). -/
def updateDopeRange (rows : List DopeRange) (rid : Nat) (rng : Int)
    (ev wd : Option Rat) : List DopeRange :=
  rows.map (fun r =>
    if r.id == rid then { r with range := rng, elevation := ev, windage := wd }
    else r)

/-- The client save flow for the reconciled row at distance `d`
(`handleEditRange` + `handleSaveRange`): if the reconciled row already
holds an entry, its `id` is carried into the edit state and saving
updates that entry; otherwise saving creates a new entry at `d`. -/
def clientSaveRange (rows : List DopeRange) (newId : Nat) (d : Int)
    (ev wd : Option Rat) : List DopeRange :=
  match rows.find? (fun r => r.range == d) with
  | some e => updateDopeRange rows e.id d ev wd
  | none => createDopeRange rows { id := newId, range := d, elevation := ev, windage := wd }

/-- C9 counterexample: the storage-layer create is a plain insert, so two
creates for the same distance leave two rows at that distance — the
uniqueness invariant is not enforced by storage or schema. -/
theorem dopeRange_unique_cex :
    ((createDopeRange
        (createDopeRange [] { id := 0, range := 300, elevation := none, windage := none })
        { id := 1, range := 300, elevation := some 1, windage := none }).countP
      (fun r => r.range == (300 : Int))) = 2 ∧ ¬ ((2 : Nat) ≤ 1) := by decide

/-- C9 amended: the client save flow preserves per-distance uniqueness:
when the ids are distinct and a distance holds at most one entry,
saving through the reconciled row (update when an entry exists at that
distance, create only when none does) leaves at most one entry at every
distance. -/
theorem clientSaveRange_preserves_uniqueness (rows : List DopeRange)
    (newId : Nat) (d d2 : Int) (ev wd : Option Rat)
    (hids : (rows.map DopeRange.id).Nodup)
    (huniq : rows.countP (fun r => r.range == d2) ≤ 1) :
    (clientSaveRange rows newId d ev wd).countP (fun r => r.range == d2) ≤ 1 := by
  unfold clientSaveRange
  cases hf : rows.find? (fun r => r.range == d) with
  | none =>
    rw [List.find?_eq_none] at hf
    unfold createDopeRange
    rw [List.countP_append]
    by_cases hd : d = d2
    · subst hd
      have h0 : rows.countP (fun r => r.range == d) = 0 := by
        rw [List.countP_eq_zero]
        exact hf
      simp [h0, List.countP_cons]
    · have h1 : ([({ id := newId, range := d, elevation := ev, windage := wd } :
          DopeRange)]).countP (fun r => r.range == d2) = 0 := by
        simp [List.countP_cons, hd]
      omega
  | some e =>
    have he : e ∈ rows := List.mem_of_find?_eq_some hf
    have her : e.range = d := by simpa using List.find?_some hf
    unfold updateDopeRange
    rw [List.countP_map]
    have hEq : ∀ r ∈ rows,
        ((fun r => r.range == d2) ∘ (fun r =>
          if r.id == e.id then { r with range := d, elevation := ev, windage := wd }
          else r)) r = (r.range == d2) := by
      intro r hr
      by_cases hid : r.id = e.id
      · have hre : r = e :=
          List.inj_on_of_nodup_map hids hr he hid
        subst hre
        simp [hid, her]
      · simp [Function.comp, hid]
    calc List.countP _ rows = List.countP (fun r => r.range == d2) rows :=
          List.countP_congr (fun r hr => by rw [hEq r hr])
      _ ≤ 1 := huniq

/-- C9 amended witness: saving an update for 300 over a single existing
entry keeps at most one entry at 300. -/
theorem clientSaveRange_preserves_uniqueness_witness :
    (clientSaveRange
        [{ id := 0, range := 300, elevation := none, windage := none }]
        5 300 (some 2) none).countP (fun r => r.range == (300 : Int)) ≤ 1 := by
  exact clientSaveRange_preserves_uniqueness _ 5 300 300 (some 2) none
    (by decide) (by decide)

/-! ## DOPE card text export (`generateAsciiTable` in `dope.tsx`) -/

/-- The fields of a DOPE card the exporter reads. -/
structure DopeCard where
  name : String
  rifle : String
  calibre : String
deriving DecidableEq, Repr

/-- JS `"x".repeat(n)`. -/
def strRepeat (c : Char) (n : Nat) : String :=
  String.mk (List.replicate n c)

/-- JS `s.padStart(n)`: left-pad with spaces up to length `n` (no-op when
already long enough — the column grows rather than truncates). -/
def jsPadStart (s : String) (n : Nat) : String :=
  String.mk (List.replicate (n - s.length) ' ') ++ s

/-- JS `x.toFixed(1)` on the MOA values, modelled with round-half-up on
rationals. -/
def toFixed1 (q : Rat) : String :=
  let s : Int := ⌊q * 10 + 1/2⌋
  (if s < 0 then "-" else "") ++
    toString (s.natAbs / 10) ++ "." ++ toString (s.natAbs % 10)

/-- One emitted line of `generateAsciiTable`, kept structured (one
constructor per `content +=` statement) so theorems can speak about
which rows appear; `renderAsciiLine` gives each line's exact text. -/
inductive AsciiLine where
  | divider
  | centered (s : String)
  | blank
  | minorDivider
  | colHeader1
  | colHeader2
  | dataRow (range : Int) (windage elevation : Option Rat)
  | emptyRow
  | banner
  | generated (timestamp : String)
  | footer
deriving DecidableEq, Repr

/-- The exact text of each line of the generated table. -/
def renderAsciiLine : AsciiLine → String
  | .divider => strRepeat '=' 60
  | .centered s => jsPadStart s ((60 + s.length) / 2)
  | .blank => ""
  | .minorDivider => strRepeat '-' 60
  | .colHeader1 => "| Distance | Windage | Elevation |"
  | .colHeader2 => "|   (yds)  |  (MOA)  |   (MOA)   |"
  | .dataRow rng w e =>
      "|" ++ jsPadStart (toString rng) 6 ++ "  |" ++
      (match w with
        | some q => jsPadStart (toFixed1 q) 6
        | none => jsPadStart "" 6) ++ "  |" ++
      (match e with
        | some q => jsPadStart (toFixed1 q) 7
        | none => jsPadStart "" 7) ++ "  |"
  | .emptyRow => "|          |         |           |"
  | .banner => "|    (No range data available)    |"
  | .generated ts => "Generated: " ++ ts
  | .footer => "ShotTracker Pro - Precision Shooting Logger"

/-- The `[...ranges].sort((a, b) => a.range - b.range)` call. -/
def sortRangesByDistance (ranges : List DopeRange) : List DopeRange :=
  ranges.mergeSort (fun a b => decide (a.range ≤ b.range))

/-- The lines of `generateAsciiTable(card, ranges)`: header block, column
headings, then — only when at least one range entry was supplied — one
row per entry sorted by distance, otherwise the three-line
"no range data" block, then the footer with the generation timestamp
(an input here, `new Date().toLocaleString()` at the call site). -/
def generateAsciiLines (card : DopeCard) (ranges : List DopeRange)
    (timestamp : String) : List AsciiLine :=
  [AsciiLine.divider,
   .centered ("DOPE CARD: " ++ card.rifle ++ " - " ++ card.calibre),
   .centered ("Card Name: " ++ card.name),
   .divider, .blank,
   .minorDivider, .colHeader1, .colHeader2, .minorDivider]
  ++ (if ranges.length > 0 then
        (sortRangesByDistance ranges).map
          (fun r => .dataRow r.range r.windage r.elevation)
      else [.emptyRow, .banner, .emptyRow])
  ++ [.minorDivider, .blank, .generated timestamp, .footer]

/-- The full exported text: the lines joined by newlines, with the
trailing newline the source's final `+=` leaves. -/
def generateAsciiTable (card : DopeCard) (ranges : List DopeRange)
    (timestamp : String) : String :=
  String.intercalate "\n"
    ((generateAsciiLines card ranges timestamp).map renderAsciiLine) ++ "\n"

/-- Whether a line is a distance row of the table body. -/
def AsciiLine.isDataRow : AsciiLine → Bool
  | .dataRow _ _ _ => true
  | _ => false

/-- A concrete card for the export counterexample. -/
def testCard : DopeCard := { name := "Test", rifle := "R1", calibre := "6.5CM" }

/-- C6 counterexample: invoked with zero range entries, the export
contains the visible "(No range data available)" banner but ZERO
distance rows — the fixed-distance table is not emitted, so the claim
that the output still contains one row per standard distance fails. -/
theorem asciiTable_empty_cex :
    AsciiLine.banner ∈ generateAsciiLines testCard [] "ts" ∧
    (generateAsciiLines testCard [] "ts").countP AsciiLine.isDataRow = 0 := by
  decide

/-- C6 amended: with zero range entries the export still emits the fixed
header and a visible "(No range data available)" banner, but no
distance rows at all; in general the table holds exactly one distance
row per supplied entry, so the standard distances appear only insofar
as entries exist for them. -/
theorem asciiTable_rows_amended (card : DopeCard) (ts : String) :
    AsciiLine.banner ∈ generateAsciiLines card [] ts ∧
    (∀ ranges : List DopeRange,
      (generateAsciiLines card ranges ts).countP AsciiLine.isDataRow =
        ranges.length) := by
  constructor
  · simp [generateAsciiLines]
  · intro ranges
    unfold generateAsciiLines
    rw [List.countP_append, List.countP_append]
    have hhead : List.countP AsciiLine.isDataRow
        [AsciiLine.divider,
         .centered ("DOPE CARD: " ++ card.rifle ++ " - " ++ card.calibre),
         .centered ("Card Name: " ++ card.name),
         .divider, .blank,
         .minorDivider, .colHeader1, .colHeader2, .minorDivider] = 0 := rfl
    have hfoot : List.countP AsciiLine.isDataRow
        [AsciiLine.minorDivider, .blank, .generated ts, .footer] = 0 := rfl
    rw [hhead, hfoot]
    by_cases hr : ranges.length > 0
    · rw [if_pos hr]
      have hmap : List.countP AsciiLine.isDataRow
          ((sortRangesByDistance ranges).map
            (fun r => .dataRow r.range r.windage r.elevation)) =
          (sortRangesByDistance ranges).length := by
        rw [List.countP_map]
        have : ∀ r ∈ sortRangesByDistance ranges,
            (AsciiLine.isDataRow ∘
              (fun r => AsciiLine.dataRow r.range r.windage r.elevation)) r =
            (fun _ => true) r := fun r _ => rfl
        rw [List.countP_congr (fun r hr2 => by rw [this r hr2])]
        exact congrFun List.countP_true _
      rw [hmap]
      have hlen : (sortRangesByDistance ranges).length = ranges.length := by
        unfold sortRangesByDistance
        exact (List.mergeSort_perm ranges _).length_eq
      omega
    · rw [if_neg hr]
      have hz : ranges.length = 0 := by omega
      simp [hz]
      exact ⟨rfl, rfl, rfl⟩

/-! ## CSV session export field escaping (`exportUtils.ts`) -/

/-- The `field.replace(/"/g, '""')` call: every quote character becomes
two quote characters. -/
def doubleQuotes : List Char → List Char
  | [] => []
  | c :: rest =>
      if c = '"' then '"' :: '"' :: doubleQuotes rest
      else c :: doubleQuotes rest

/-- The escaping condition of `exportToCSV`:
`field.includes(',') || field.includes('"') || field.includes('\n')`. -/
def hasCsvSpecial (s : String) : Bool :=
  s.data.any (fun c => c == ',' || c == '"' || c == '\n')

/-- Field escaping of `exportToCSV`: a field containing the delimiter, a
quote, or a newline is wrapped in quotes with internal quotes doubled
(`"${field.replace(/"/g, '""')}"`); other fields pass through
unchanged.  (All row fields are strings, so the `typeof` guard always
holds.) -/
def escapeCSVField (s : String) : String :=
  if hasCsvSpecial s then String.mk ('"' :: (doubleQuotes s.data ++ ['"']))
  else s

/-- Modelled from the spec: standard CSV unescaping collapses each doubled
quote back to a single quote (the repository itself has no CSV
importer). -/
def undoubleQuotes : List Char → List Char
  | [] => []
  | [c] => [c]
  | c :: d :: rest =>
      if c = '"' ∧ d = '"' then '"' :: undoubleQuotes rest
      else c :: undoubleQuotes (d :: rest)

/-- Modelled from the spec: standard CSV field unescaping (the repository
has no importer) — a field wrapped in quotes has the outer quotes
stripped and internal doubled quotes collapsed; any other field is
returned unchanged. -/
def csvUnescape (s : String) : String :=
  if s.data.head? = some '"' ∧ s.data.getLast? = some '"' ∧ 2 ≤ s.data.length
  then String.mk (undoubleQuotes ((s.data.drop 1).dropLast))
  else s

/-- Collapsing doubled quotes undoes doubling. -/
theorem undouble_double (cs : List Char) :
    undoubleQuotes (doubleQuotes cs) = cs := by
  induction cs with
  | nil => rfl
  | cons c rest ih =>
    by_cases hc : c = '"'
    · subst hc
      show undoubleQuotes (doubleQuotes ('"' :: rest)) = _
      rw [doubleQuotes, if_pos rfl]
      show undoubleQuotes ('"' :: '"' :: doubleQuotes rest) = _
      rw [undoubleQuotes, if_pos ⟨rfl, rfl⟩, ih]
    · rw [doubleQuotes, if_neg hc]
      cases hdr : doubleQuotes rest with
      | nil =>
        have hrest : rest = [] := by
          cases rest with
          | nil => rfl
          | cons d ds =>
            rw [doubleQuotes] at hdr
            by_cases hd : d = '"'
            · rw [if_pos hd] at hdr; exact List.noConfusion hdr
            · rw [if_neg hd] at hdr; exact List.noConfusion hdr
        subst hrest
        rfl
      | cons d ds =>
        rw [undoubleQuotes, if_neg (fun h => hc h.1), ← hdr, ih]

/-- C7: every field containing the delimiter (comma), a quote, or a
newline is wrapped in quotes with each internal quote doubled and
round-trips through standard CSV unescaping without corruption; fields
containing none of those characters are emitted unchanged. -/
theorem exportToCSV_escaping (s : String) :
    (hasCsvSpecial s = true →
      escapeCSVField s = String.mk ('"' :: (doubleQuotes s.data ++ ['"'])) ∧
      csvUnescape (escapeCSVField s) = s) ∧
    (hasCsvSpecial s = false → escapeCSVField s = s) := by
  constructor
  · intro hs
    have hesc : escapeCSVField s =
        String.mk ('"' :: (doubleQuotes s.data ++ ['"'])) := by
      rw [escapeCSVField, if_pos hs]
    refine ⟨hesc, ?_⟩
    rw [hesc]
    have hdata : (String.mk ('"' :: (doubleQuotes s.data ++ ['"']))).data =
        ('"' :: doubleQuotes s.data) ++ ['"'] := by
      simp
    rw [csvUnescape, hdata]
    rw [if_pos ?_]
    · have hdrop : ((('"' :: doubleQuotes s.data) ++ ['"']).drop 1).dropLast =
          doubleQuotes s.data := by
        rw [List.cons_append, List.drop_one, List.tail_cons, List.dropLast_concat]
      rw [hdrop, undouble_double]
    · refine ⟨?_, ?_, ?_⟩
      · simp
      · rw [List.getLast?_concat]
      · simp
  · intro hs
    rw [escapeCSVField, if_neg (by simp [hs])]

/-- The spec's round-trip example note. -/
def exNote : String := "He said, \"good group\""

/-- C7 witness: the example note contains a comma and a quote and
round-trips through escape/unescape unchanged. -/
theorem exportToCSV_escaping_witness :
    hasCsvSpecial exNote = true ∧
    csvUnescape (escapeCSVField exNote) = exNote := by
  have h := exportToCSV_escaping exNote
  exact ⟨by decide, (h.1 (by decide)).2⟩

end ShotTracker
